import Mathlib

/-!
# Verification of the PrintLe server's print-job transformation pipeline

This development is a shallow embedding of the logic-bearing parts of
`printle-server/server.js`:

* `getPageIndices` — the page-range resolver (server.js lines 23–40);
* `extractParity` — the odd/even manual-duplex page split (lines 78–90);
* `extractPages` / `pdfTransform` — the PDF page-selection pipeline of the
  `/api/print` handler (lines 63–99);
* `buildJobAttributes` — the conditional IPP job-attribute construction
  (lines 103–124);
* `handler` — the whole `/api/print` request handler (lines 42–143),
  parameterised over the external pdf-lib collaborator (`parse`/`save`) and
  the IPP transport's reply.

JavaScript numbers are modelled exactly as rationals (`ℚ`): every numeric
string the claims exercise denotes a small decimal, which IEEE doubles
represent exactly, so `ℚ` agrees with the source on all the inputs used
here.  `Number(s)` is modelled by `jsNumber`, returning `none` for NaN;
a NaN operand makes every JS comparison false, which the embedding
reproduces by dropping the corresponding branch.  Exotic numeric forms
JavaScript additionally accepts (hexadecimal, exponent notation,
`Infinity`) are outside the model; no claim or counterexample below
depends on them.

The rational arithmetic inside the executable definitions is written with
`mkRat` / `Rat.num` / `Rat.den` and machine-integer operations (rather
than the `@[irreducible]` `ℚ` field operations) so that every concrete
run of the resolver reduces inside the kernel; bridge lemmas below relate
these to the ordinary `+`, `-` and `⌊·⌋` for the abstract proofs.

The JS `Set` of indices followed by `Array.from(..).sort((a, b) => a - b)`
is modelled by deduplication (`List.dedup`) followed by
`List.insertionSort (· ≤ ·)`: they compute the same ascending
duplicate-free arrangement of the collected values that the source
produces.  All values entering the set are `mkRat`-normalised, so
structural equality used by `dedup` coincides with the value equality of
the JS `Set`.
-/

/-! ## Kernel-computable rational helpers -/

/-- `a - b` on `ℚ`, computed with `mkRat` (kernel-reducible). -/
def qSub (a b : ℚ) : ℚ := mkRat (a.num * (b.den : ℤ) - b.num * (a.den : ℤ)) (a.den * b.den)

/-- `a + k` for a natural `k`, computed with `mkRat` (kernel-reducible). -/
def qAddNat (a : ℚ) (k : ℕ) : ℚ := mkRat (a.num + (k : ℤ) * (a.den : ℤ)) a.den

/-- `a - 1`, computed with `mkRat` (kernel-reducible). -/
def qSubOne (a : ℚ) : ℚ := mkRat (a.num - (a.den : ℤ)) a.den

/-- Number of iterations of the JS loop `for (let i = s; i <= e; i++)`
when `s ≤ e`, namely `⌊e - s⌋ + 1`, computed with integer division. -/
def iterLen (s e : ℚ) : ℕ := ((qSub e s).num / ((qSub e s).den : ℤ)).toNat + 1

/-! ## Character-list string primitives

JavaScript's `String.prototype.trim`, single-character `split` and
`includes` on the code's separators, implemented structurally over the
character list of the string so that they reduce in the kernel. -/

/-- Whitespace test used by trimming (space, tab, newline, …). -/
def isWs (c : Char) : Bool := c.isWhitespace

/-- `s.trim()`: remove leading and trailing whitespace. -/
def trimChars (cs : List Char) : List Char :=
  ((cs.dropWhile isWs).reverse.dropWhile isWs).reverse

/-- `s.split(sep)` for a single-character separator: split at every
occurrence of `sep`; always returns at least one (possibly empty) field,
and a separator at either end yields an empty field there, exactly as in
JavaScript. -/
def splitOnChar (sep : Char) : List Char → List (List Char)
  | [] => [[]]
  | c :: rest =>
    match splitOnChar sep rest with
    | [] => [[]]
    | cur :: done => if c = sep then [] :: cur :: done else (c :: cur) :: done

/-! ## The `Number` conversion -/

/-- Digit value of a decimal digit character, as in the usual base-10 read. -/
def digitVal (c : Char) : ℕ := c.toNat - 48

/-- The natural number denoted by a list of decimal digit characters. -/
def natVal (cs : List Char) : ℕ := cs.foldl (fun a c => 10 * a + digitVal c) 0

/-- JavaScript `Number(s)` on decimal strings, modelled exactly in `ℚ`.
`none` stands for NaN.  Mirrors `Number`'s semantics: surrounding
whitespace is trimmed, the empty (or all-whitespace) string converts to
`0`, an optional sign is followed by decimal digits with an optional
fractional part (`"5."`, `".5"` and `"0.5"` are all accepted, `"."` and
`"1 2"` are NaN). -/
def jsNumber (s : List Char) : Option ℚ :=
  let t := trimChars s
  if t = [] then some 0
  else
    let sb : ℤ × List Char :=
      match t with
      | '+' :: rest => (1, rest)
      | '-' :: rest => (-1, rest)
      | cs => (1, cs)
    let intPart := sb.2.takeWhile Char.isDigit
    let rest := sb.2.dropWhile Char.isDigit
    match rest with
    | [] => if intPart = [] then none else some (mkRat (sb.1 * (natVal intPart : ℤ)) 1)
    | '.' :: frac =>
      if frac.all Char.isDigit ∧ (intPart ≠ [] ∨ frac ≠ []) then
        some (mkRat (sb.1 * ((natVal intPart * 10 ^ frac.length + natVal frac : ℕ) : ℤ))
          (10 ^ frac.length))
      else none
    | _ => none

/-! ## The page-range resolver -/

/-- The zero-based indices contributed by the range branch of
`getPageIndices` (server.js lines 30–33), in loop order: the JS loop
`for (let i = start; i <= end; i++) if (i > 0 && i <= totalPages)
indices.add(i - 1)` visits exactly the values `start + k` for natural `k`
with `start + k ≤ end`, i.e. `k < ⌊end - start⌋ + 1`; when `start > end`
the loop body never runs. -/
def rangeIndices (s e : ℚ) (n : ℕ) : List ℚ :=
  if s ≤ e then
    (List.range (iterLen s e)).filterMap
      (fun k =>
        if 0 < qAddNat s k ∧ qAddNat s k ≤ (n : ℚ) then some (qSubOne (qAddNat s k)) else none)
  else []

/-- The indices contributed by one comma-separated token of the range
expression (already trimmed), server.js lines 28–37.  A token containing
a hyphen takes the range branch: it is split at every hyphen, its first
two fields are converted with `Number` (the `[start, end]` destructuring
of `part.split('-').map(Number)`), and the bounded loop runs; a NaN bound
yields no iterations, since every JS comparison with NaN is false.  A
hyphen-free token is converted with `Number` and kept exactly when
`0 < page ≤ totalPages` (NaN again fails the comparison). -/
def partIndices (part : List Char) (n : ℕ) : List ℚ :=
  if part.contains '-' then
    match (splitOnChar '-' part).map jsNumber with
    | some s :: some e :: _ => rangeIndices s e n
    | _ => []
  else
    match jsNumber part with
    | some p => if 0 < p ∧ p ≤ (n : ℚ) then [qSubOne p] else []
    | none => []

/-- The page-range resolver `getPageIndices` of server.js lines 23–40.
`none` models the `null` returned for a falsy (empty) range string.
Otherwise the expression is split at commas, each token trimmed and
processed by `partIndices` into one deduplicating `Set`, and the result
returned numerically sorted ascending
(`Array.from(indices).sort((a, b) => a - b)`). -/
def getPageIndices (rangeStr : String) (totalPages : ℕ) : Option (List ℚ) :=
  if rangeStr = "" then none
  else
    some (List.insertionSort (· ≤ ·)
      ((((splitOnChar ',' rangeStr.data).map trimChars).map
        (partIndices · totalPages)).flatten.dedup))

example : getPageIndices "1-3, 5" 10 = some [0, 1, 2, 4] := by decide
example : getPageIndices "1-3, 5" 3 = some [0, 1, 2] := by decide
example : getPageIndices "   " 7 = some [] := by decide
example : getPageIndices "-5" 3 = some [0, 1, 2] := by decide
example : getPageIndices "0.5" 5 = some [mkRat (-1) 2] := by decide
example : getPageIndices "1-2-3" 10 = some [0, 1] := by decide
example : getPageIndices "2-5" 3 = some [1, 2] := by decide
example : getPageIndices "" 9 = none := by decide
example : getPageIndices "999" 3 = some [] := by decide
example : getPageIndices "5, 1" 10 = some [0, 4] := by decide
example : getPageIndices "2-4" 10 = some [1, 2, 3] := by decide

/-! ## The manual-duplex parity splitter -/

/-- The page-keeping test of server.js lines 82–83:
`isOddIndex = (i % 2 === 0)`, and the page is copied when
`(duplexType === 'odd' && isOddIndex) || (duplexType === 'even' && !isOddIndex)`. -/
def parityKeep (duplexType : String) (i : ℕ) : Bool :=
  (duplexType == "odd" && i % 2 == 0) || (duplexType == "even" && !(i % 2 == 0))

/-- The loop of server.js lines 81–87, walking the pages with their
0-based index `i` and keeping those passing `parityKeep`. -/
def extractParityAux {α : Type} (duplexType : String) : ℕ → List α → List α
  | _, [] => []
  | i, a :: rest =>
    if parityKeep duplexType i then a :: extractParityAux duplexType (i + 1) rest
    else extractParityAux duplexType (i + 1) rest

/-- The odd/even page split of server.js lines 78–90: a new document made
of the pages of `pages` whose 0-based position passes `parityKeep`, in
original order.  A document is modelled as the list of its pages. -/
def extractParity {α : Type} (pages : List α) (duplexType : String) : List α :=
  extractParityAux duplexType 0 pages

example : extractParity [10, 20, 30, 40, 50] "odd" = [10, 30, 50] := by decide
example : extractParity [10, 20, 30, 40, 50] "even" = [20, 40] := by decide

/-! ## Page extraction and the PDF transformation pipeline -/

/-- `PDFDocument.copyPages(pdfDoc, indices)` of the external pdf-lib
collaborator, modelled on a document given as its page list: each index
must name an existing page (a nonnegative integer below the page count) —
pdf-lib throws on an invalid index, modelled as `none`, which the handler
turns into an internal error. -/
def extractPages {α : Type} (pages : List α) (indices : List ℚ) : Option (List α) :=
  indices.mapM (fun q => if 0 ≤ q.num ∧ q.den = 1 then pages[q.num.toNat]? else none)

example : extractPages [10, 20, 30] [(0 : ℚ), 2] = some [10, 30] := by decide
example : extractPages [10, 20, 30] [(5 : ℚ)] = none := by decide

/-- The PDF modification block of the `/api/print` handler (server.js
lines 63–98), on a document modelled as its page list: first the page
range (when the `pages` field is a non-empty string) — extraction runs
only when the resolver yields a non-empty index list — then the odd/even
parity split (when the `duplex` field is `"odd"` or `"even"`).  Returns
the final page list together with the `modified` flag; `none` models a
thrown document-model error. -/
def pdfTransform {α : Type} (pages : List α) (pageRange duplexType : String) :
    Option (List α × Bool) :=
  let step1 : Option (List α × Bool) :=
    if pageRange ≠ "" then
      match getPageIndices pageRange pages.length with
      | some l =>
        if 0 < l.length then (extractPages pages l).map (fun d => (d, true))
        else some (pages, false)
      | none => some (pages, false)
    else some (pages, false)
  step1.bind (fun dm =>
    if duplexType = "odd" ∨ duplexType = "even" then some (extractParity dm.1 duplexType, true)
    else some dm)

example : pdfTransform [1, 2, 3, 4, 5, 6, 7, 8, 9, 10] "2-4" "odd" = some ([2, 4], true) := by
  decide
example : pdfTransform [1, 2, 3] "999" "odd" = some ([1, 3], true) := by decide
example : pdfTransform [1, 2, 3] "999" "" = some ([1, 2, 3], false) := by decide

/-! ## IPP job attributes -/

/-- The job-attributes construction of server.js lines 103–124: the
`job-attributes-tag` object starts empty, gains
`print-color-mode = monochrome` when the grayscale flag is set, and gains
`sides = two-sided-long-edge` when the duplex field is `"auto"`.  Modelled
as the association list of attributes in insertion order. -/
def buildJobAttributes (grayscale : Bool) (duplexType : String) : List (String × String) :=
  (if grayscale then [("print-color-mode", "monochrome")] else []) ++
    (if duplexType = "auto" then [("sides", "two-sided-long-edge")] else [])

example : buildJobAttributes true "" = [("print-color-mode", "monochrome")] := by decide
example : buildJobAttributes false "auto" = [("sides", "two-sided-long-edge")] := by decide
example : buildJobAttributes false "odd" = [] := by decide

/-! ## The request handler -/

/-- The data handed to `printer.execute("Print-Job", …)` (server.js lines
103–111 and 126–127): job name, document format, the job-attributes tag
and the final byte payload. -/
structure SubmittedJob where
  jobName : String
  documentFormat : String
  attrs : List (String × String)
  payload : List ℕ
deriving DecidableEq

/-- The IPP transport's reply, as consumed by the callback of
server.js lines 127–136: either a connection error or a response with a
protocol status code and a job id. -/
inductive IppOutcome
  | ippError
  | ippResponse (statusCode : String) (jobId : ℕ)
deriving DecidableEq

/-- The HTTP response of the `/api/print` handler. -/
inductive HandlerResponse
  | badRequest (error : String)
  | connectionFailed (error : String)
  | printerError (error ippStatus : String)
  | internalError (error : String)
  | ok (jobId : ℕ)
deriving DecidableEq

/-- The `/api/print` handler (server.js lines 42–143), parameterised over
the external pdf-lib collaborator: `parse` models `PDFDocument.load`
(bytes to page list, each page itself modelled as bytes) and `save`
models `pdfDoc.save()` (page list to bytes).  Inputs are the uploaded
file (`none` when absent; otherwise original name, MIME type and bytes),
the printer URL, the `duplex`, `pages` and `grayscale` body fields
(absent fields modelled as `""`, matching JS falsiness), and the IPP
transport's reply.  Returns the job submitted to the transport (`none`
when the transport is never invoked) and the HTTP response. -/
def handler (parse : List ℕ → List (List ℕ)) (save : List (List ℕ) → List ℕ)
    (file : Option (String × String × List ℕ)) (printerUrl : Option String)
    (duplexType pageRange grayscaleStr : String) (ipp : IppOutcome) :
    Option SubmittedJob × HandlerResponse :=
  match file, printerUrl with
  | none, _ => (none, HandlerResponse.badRequest "Missing file or printerUrl")
  | _, none => (none, HandlerResponse.badRequest "Missing file or printerUrl")
  | some (originalname, mimetype, bytes), some _ =>
    let grayscale : Bool := grayscaleStr == "true"
    let buf : Option (List ℕ) :=
      if mimetype = "application/pdf" then
        (pdfTransform (parse bytes) pageRange duplexType).map
          (fun dm => if dm.2 then save dm.1 else bytes)
      else some bytes
    match buf with
    | none => (none, HandlerResponse.internalError "Internal Server Error")
    | some fileBuffer =>
      let docFormat :=
        if mimetype = "application/pdf" then "application/pdf" else "application/octet-stream"
      let job : SubmittedJob :=
        ⟨originalname, docFormat, buildJobAttributes grayscale duplexType, fileBuffer⟩
      match ipp with
      | IppOutcome.ippError =>
        (some job, HandlerResponse.connectionFailed "Printer Connection Failed")
      | IppOutcome.ippResponse status jobId =>
        if status = "successful-ok" ∨ status = "successful-ok-ignored-or-substituted-attributes"
        then (some job, HandlerResponse.ok jobId)
        else (some job, HandlerResponse.printerError "Printer reported error" status)

example :
    handler (fun _ => [[1], [2], [3]]) List.flatten
      (some ("f.pdf", "application/pdf", [9, 9])) (some "ipp://p") "odd" "999" ""
      (IppOutcome.ippResponse "successful-ok" 7) =
    (some ⟨"f.pdf", "application/pdf", [], [1, 3]⟩, HandlerResponse.ok 7) := by decide
example :
    handler (fun _ => []) (fun _ => []) (some ("a.txt", "text/plain", [5, 6])) (some "p")
      "odd" "1-2" "false" (IppOutcome.ippResponse "successful-ok" 3) =
    (some ⟨"a.txt", "application/octet-stream", [], [5, 6]⟩, HandlerResponse.ok 3) := by decide

/-! ## Bridge lemmas: the kernel-computable helpers equal the `ℚ` field operations -/

lemma qSub_eq (a b : ℚ) : qSub a b = a - b := by
  have ha : ((a.den : ℚ)) ≠ 0 := Nat.cast_ne_zero.mpr a.den_ne_zero
  have hb : ((b.den : ℚ)) ≠ 0 := Nat.cast_ne_zero.mpr b.den_ne_zero
  rw [qSub, Rat.mkRat_eq_div]
  conv_rhs => rw [← Rat.num_div_den a, ← Rat.num_div_den b]
  rw [div_sub_div _ _ ha hb]
  push_cast
  ring_nf

lemma qAddNat_eq (a : ℚ) (k : ℕ) : qAddNat a k = a + (k : ℚ) := by
  have ha : ((a.den : ℚ)) ≠ 0 := Nat.cast_ne_zero.mpr a.den_ne_zero
  rw [qAddNat, Rat.mkRat_eq_div]
  push_cast
  rw [add_div, Rat.num_div_den, mul_div_cancel_right₀ _ ha]

lemma qSubOne_eq (a : ℚ) : qSubOne a = a - 1 := by
  have ha : ((a.den : ℚ)) ≠ 0 := Nat.cast_ne_zero.mpr a.den_ne_zero
  rw [qSubOne, Rat.mkRat_eq_div]
  push_cast
  rw [sub_div, Rat.num_div_den, div_self ha]

lemma iterLen_eq (s e : ℚ) : iterLen s e = (⌊e - s⌋).toNat + 1 := by
  rw [iterLen, qSub_eq, ← Rat.floor_def]

/-! ## Every resolver output element is `i - 1` for some in-bounds page value `i` -/

lemma rangeIndices_mem {s e : ℚ} {n : ℕ} {q : ℚ} (h : q ∈ rangeIndices s e n) :
    ∃ i : ℚ, 0 < i ∧ i ≤ (n : ℚ) ∧ q = i - 1 := by
  rw [rangeIndices] at h
  split at h
  · rw [List.mem_filterMap] at h
    obtain ⟨k, -, hk⟩ := h
    split at hk
    · rename_i hcond
      injection hk with hk
      exact ⟨qAddNat s k, hcond.1, hcond.2, by rw [← hk, qSubOne_eq]⟩
    · exact absurd hk (by simp)
  · exact absurd h (by simp)

lemma partIndices_mem {part : List Char} {n : ℕ} {q : ℚ} (h : q ∈ partIndices part n) :
    ∃ i : ℚ, 0 < i ∧ i ≤ (n : ℚ) ∧ q = i - 1 := by
  rw [partIndices] at h
  split at h
  · split at h
    · exact rangeIndices_mem h
    · exact absurd h (by simp)
  · split at h
    · rename_i p heq
      split at h
      · rename_i hcond
        rw [List.mem_singleton] at h
        exact ⟨p, hcond.1, hcond.2, by rw [h, qSubOne_eq]⟩
      · exact absurd h (by simp)
    · exact absurd h (by simp)

lemma getPageIndices_mem {rs : String} {n : ℕ} {l : List ℚ} {q : ℚ}
    (h : getPageIndices rs n = some l) (hq : q ∈ l) :
    ∃ i : ℚ, 0 < i ∧ i ≤ (n : ℚ) ∧ q = i - 1 := by
  rw [getPageIndices] at h
  split at h
  · exact absurd h (by simp)
  · injection h with h
    rw [← h, List.Perm.mem_iff (List.perm_insertionSort _ _), List.mem_dedup,
      List.mem_flatten] at hq
    obtain ⟨lp, hlp, hqlp⟩ := hq
    rw [List.mem_map] at hlp
    obtain ⟨part, -, rfl⟩ := hlp
    exact partIndices_mem hqlp

lemma getPageIndices_sorted {rs : String} {n : ℕ} {l : List ℚ}
    (h : getPageIndices rs n = some l) : l.Sorted (· < ·) ∧ l.Nodup := by
  rw [getPageIndices] at h
  split at h
  · exact absurd h (by simp)
  · injection h with h
    have hnd : l.Nodup := by
      rw [← h]
      exact ((List.perm_insertionSort _ _).nodup_iff).mpr (List.nodup_dedup _)
    have hs : l.Sorted (· ≤ ·) := by
      rw [← h]
      exact List.sorted_insertionSort _ _
    exact ⟨hs.lt_of_le hnd, hnd⟩

lemma getPageIndices_none_iff (rs : String) (n : ℕ) :
    getPageIndices rs n = none ↔ rs = "" := by
  rw [getPageIndices]
  split <;> simp_all

/-- C1 (as amended): for every range expression string and page count `n`,
the resolver returns the `null` sentinel exactly for the empty string, and
any returned sequence is strictly ascending and duplicate-free with every
element `q` satisfying `-1 < q < n`; consequently every integer element
lies within `[0, n)`.  (The lower bound must be `-1` rather than `0`
because a fractional token such as `"0.5"` passes the `page > 0` guard
and contributes the fractional element `-0.5`; see the counterexample.) -/
theorem c1_resolver_output_invariants (s : String) (n : ℕ) :
    (getPageIndices s n = none ↔ s = "") ∧
    ∀ l, getPageIndices s n = some l →
      l.Sorted (· < ·) ∧ l.Nodup ∧
        ∀ q ∈ l, -1 < q ∧ q < (n : ℚ) ∧ (q.den = 1 → 0 ≤ q) := by
  refine ⟨getPageIndices_none_iff s n, fun l hl => ?_⟩
  obtain ⟨hs, hn⟩ := getPageIndices_sorted hl
  refine ⟨hs, hn, fun q hq => ?_⟩
  obtain ⟨i, hi0, hin, rfl⟩ := getPageIndices_mem hl hq
  refine ⟨by linarith, by linarith, fun hden => ?_⟩
  have h1 : (((i - 1).num : ℚ)) = i - 1 := (Rat.den_eq_one_iff _).mp hden
  have h2 : (-1 : ℚ) < (((i - 1).num : ℚ)) := by rw [h1]; linarith
  have h3 : (-1 : ℤ) < (i - 1).num := by exact_mod_cast h2
  have h4 : (0 : ℤ) ≤ (i - 1).num := by omega
  rw [← h1]
  exact_mod_cast h4

/-- C1 counterexample: the claim as stated ("every element within
`[0, n)`") is false.  `Number("0.5")` is `0.5`, which passes the
`page > 0 && page <= totalPages` guard, so `getPageIndices("0.5", 5)`
returns `[-0.5]`, whose element is negative. -/
theorem c1_fractional_token_counterexample :
    getPageIndices "0.5" 5 = some [mkRat (-1) 2] ∧ ¬(0 ≤ mkRat (-1) 2) := by decide

/-- C1 witness: the amended theorem applied to the concrete run
`getPageIndices "1-3, 5" 10 = some [0, 1, 2, 4]`. -/
theorem c1_resolver_output_invariants_witness :
    [(0 : ℚ), 1, 2, 4].Sorted (· < ·) ∧ [(0 : ℚ), 1, 2, 4].Nodup ∧
      ∀ q ∈ [(0 : ℚ), 1, 2, 4], -1 < q ∧ q < (10 : ℚ) ∧ (q.den = 1 → 0 ≤ q) :=
  (c1_resolver_output_invariants "1-3, 5" 10).2 [0, 1, 2, 4] (by decide)

/-! ## Parity-splitter characterization -/

lemma parityKeep_odd (i : ℕ) : parityKeep "odd" i = (i % 2 == 0) := by
  have h1 : (("odd" == "odd") : Bool) = true := by decide
  have h2 : (("odd" == "even") : Bool) = false := by decide
  simp [parityKeep, h1, h2]

lemma parityKeep_even (i : ℕ) : parityKeep "even" i = !(i % 2 == 0) := by
  have h1 : (("even" == "odd") : Bool) = false := by decide
  have h2 : (("even" == "even") : Bool) = true := by decide
  simp [parityKeep, h1, h2]

lemma bnot_mod_two (k : ℕ) : (!(k % 2 == 0)) = (k % 2 == 1) := by
  rcases Nat.mod_two_eq_zero_or_one k with h | h <;> simp [h]

lemma extractParityAux_congr {α : Type} (d : String) :
    ∀ (l : List α) (i j : ℕ), i % 2 = j % 2 →
      extractParityAux d i l = extractParityAux d j l := by
  intro l
  induction l with
  | nil => intro i j _; rfl
  | cons a rest ih =>
    intro i j h
    have hk : parityKeep d i = parityKeep d j := by
      simp only [parityKeep, h]
    have hnext : (i + 1) % 2 = (j + 1) % 2 := by omega
    simp only [extractParityAux]
    rw [hk, ih (i + 1) (j + 1) hnext]

lemma extractParityAux_eq {α : Type} (d : String) :
    ∀ (l : List α) (i : ℕ),
      extractParityAux d i l =
        ((List.range l.length).filter (fun k => parityKeep d (i + k))).filterMap
          (fun k => l[k]?) := by
  intro l
  induction l with
  | nil => intro i; rfl
  | cons a rest ih =>
    intro i
    have harg :
        List.filter (fun k => parityKeep d (i + k)) (List.map Nat.succ (List.range rest.length)) =
          List.map Nat.succ
            (List.filter (fun k => parityKeep d ((i + 1) + k)) (List.range rest.length)) := by
      rw [List.filter_map]
      congr 1
      apply List.filter_congr
      intro k _
      show parityKeep d (i + (k + 1)) = parityKeep d ((i + 1) + k)
      congr 1
      omega
    have hcomp : ((fun k => (a :: rest)[k]?) ∘ Nat.succ) = (fun k : ℕ => rest[k]?) := by
      funext k
      simp
    simp only [extractParityAux, List.length_cons, List.range_succ_eq_map, List.filter_cons,
      Nat.add_zero]
    rw [harg]
    by_cases hk : parityKeep d i
    · simp only [if_pos hk]
      rw [List.filterMap_cons, List.filterMap_map, hcomp, ih (i + 1)]
      simp
    · simp only [if_neg hk]
      rw [List.filterMap_map, hcomp, ih (i + 1)]

lemma extractParityAux_sublist {α : Type} (d : String) :
    ∀ (l : List α) (i : ℕ), (extractParityAux d i l).Sublist l := by
  intro l
  induction l with
  | nil => intro i; exact List.Sublist.refl []
  | cons a rest ih =>
    intro i
    simp only [extractParityAux]
    by_cases hk : parityKeep d i
    · simp only [if_pos hk]
      exact (ih (i + 1)).cons₂ a
    · simp only [if_neg hk]
      exact (ih (i + 1)).cons a

/-- Restatement of the spec's description of the `odd` parity selection
("the pages at indices where `index % 2 == 0`"): the first page, then
every second page.  Used to compare the source's indexed loop against the
specified selection. -/
def oddPagesSpec {α : Type} : List α → List α
  | [] => []
  | [a] => [a]
  | a :: _ :: rest => a :: oddPagesSpec rest

/-- The pages at indices divisible by 4: the first page, then every
fourth page.  This is what re-applying the `odd` parity split to its own
output actually selects. -/
def fourthSpec {α : Type} : List α → List α
  | [] => []
  | [a] => [a]
  | [a, _] => [a]
  | [a, _, _] => [a]
  | a :: _ :: _ :: _ :: rest => a :: fourthSpec rest

lemma extractParity_eq_oddPagesSpec_bounded {α : Type} :
    ∀ (m : ℕ) (l : List α), l.length ≤ m → extractParityAux "odd" 0 l = oddPagesSpec l := by
  intro m
  induction m with
  | zero =>
    intro l hl
    have h : l = [] := List.eq_nil_of_length_eq_zero (Nat.le_zero.mp hl)
    subst h
    rfl
  | succ m ih =>
    intro l hl
    match l with
    | [] => rfl
    | [a] => rfl
    | a :: b :: rest =>
      simp only [List.length_cons] at hl
      simp [extractParityAux, parityKeep_odd]
      rw [extractParityAux_congr "odd" rest 2 0 (by norm_num)]
      rw [ih rest (by omega)]
      simp [oddPagesSpec]

lemma extractParity_odd_eq {α : Type} (l : List α) :
    extractParity l "odd" = oddPagesSpec l :=
  extractParity_eq_oddPagesSpec_bounded l.length l le_rfl

lemma oddPagesSpec_oddPagesSpec_bounded {α : Type} :
    ∀ (m : ℕ) (l : List α), l.length ≤ m →
      oddPagesSpec (oddPagesSpec l) = fourthSpec l := by
  intro m
  induction m with
  | zero =>
    intro l hl
    have h : l = [] := List.eq_nil_of_length_eq_zero (Nat.le_zero.mp hl)
    subst h
    rfl
  | succ m ih =>
    intro l hl
    match l with
    | [] => rfl
    | [a] => rfl
    | [a, b] => rfl
    | [a, b, c] => rfl
    | a :: b :: c :: d :: rest =>
      simp only [List.length_cons] at hl
      simp only [oddPagesSpec, fourthSpec]
      rw [ih rest (by omega)]

lemma oddPagesSpec_length_bounded {α : Type} :
    ∀ (m : ℕ) (l : List α), l.length ≤ m →
      (oddPagesSpec l).length = (l.length + 1) / 2 := by
  intro m
  induction m with
  | zero =>
    intro l hl
    have h : l = [] := List.eq_nil_of_length_eq_zero (Nat.le_zero.mp hl)
    subst h
    simp [oddPagesSpec]
  | succ m ih =>
    intro l hl
    match l with
    | [] => simp [oddPagesSpec]
    | [a] => simp [oddPagesSpec]
    | a :: b :: rest =>
      simp only [List.length_cons] at hl
      simp only [oddPagesSpec, List.length_cons]
      rw [ih rest (by omega)]
      omega

lemma oddPagesSpec_eq_self_iff {α : Type} (l : List α) :
    oddPagesSpec l = l ↔ l.length ≤ 1 := by
  constructor
  · intro h
    have hlen := congrArg List.length h
    rw [oddPagesSpec_length_bounded l.length l le_rfl] at hlen
    omega
  · intro h
    match l with
    | [] => rfl
    | [a] => rfl
    | a :: b :: rest => simp at h

/-- C5: with directive `odd` the parity splitter selects exactly the pages
at 0-based indices with `index % 2 == 0` (human-numbered odd pages 1, 3,
5, …), with directive `even` exactly the complementary indices, and in
both cases the selected pages appear in the result in their original
document order (the result is a sublist of the document, produced in
ascending index order). -/
theorem c5_parity_exact_selection (α : Type) (l : List α) :
    extractParity l "odd" =
      ((List.range l.length).filter (fun k => k % 2 == 0)).filterMap (fun k => l[k]?) ∧
    extractParity l "even" =
      ((List.range l.length).filter (fun k => k % 2 == 1)).filterMap (fun k => l[k]?) ∧
    (extractParity l "odd").Sublist l ∧ (extractParity l "even").Sublist l := by
  refine ⟨?_, ?_, extractParityAux_sublist _ l 0, extractParityAux_sublist _ l 0⟩
  · rw [extractParity, extractParityAux_eq]
    congr 1
    apply List.filter_congr
    intro k _
    simp [parityKeep_odd]
  · rw [extractParity, extractParityAux_eq]
    congr 1
    apply List.filter_congr
    intro k _
    simp [parityKeep_even, bnot_mod_two]

/-- C9 counterexample: re-applying the `odd` split to its own output does
NOT retain every page.  On the 5-page document `[1, 2, 3, 4, 5]` the
first `odd` split keeps `[1, 3, 5]`, and re-applying `odd` to that
3-page result keeps only its pages at internal indices 0 and 2, i.e.
`[1, 5]` — page 3 is lost, refuting the claimed re-selection of all
pages. -/
theorem c9_counterexample :
    extractParity [1, 2, 3, 4, 5] "odd" = [1, 3, 5] ∧
    extractParity (extractParity [1, 2, 3, 4, 5] "odd") "odd" = [1, 5] ∧
    ([1, 5] : List ℕ) ≠ [1, 3, 5] := by decide

/-- C9 (as amended): re-applying `odd`-parity extraction to an
odd-parity selection selects every second page of it — equivalently the
original document's pages at indices divisible by 4 — so it retains
every page of the first selection exactly when that selection has at
most one page. -/
theorem c9_reapplied_parity (α : Type) (l : List α) :
    extractParity (extractParity l "odd") "odd" = fourthSpec l ∧
    (extractParity (extractParity l "odd") "odd" = extractParity l "odd" ↔
      (extractParity l "odd").length ≤ 1) := by
  constructor
  · rw [extractParity_odd_eq, extractParity_odd_eq]
    exact oddPagesSpec_oddPagesSpec_bounded l.length l le_rfl
  · rw [extractParity_odd_eq (extractParity l "odd")]
    exact oddPagesSpec_eq_self_iff _

/-- C2: when both a page range and a manual-duplex parity directive are
present, the handler applies the page-range filter first and then the
parity filter on the filtered result's page order.  Concretely, a
10-page PDF with range `"2-4"` and directive `odd` yields the 2-page
document of original pages 2 and 4 (parity is computed on the post-filter
sequence — parity on original page numbers would instead keep page 3);
in general, whenever the resolver yields a non-empty index list and
extraction succeeds, the output is the parity split of the extracted
document. -/
theorem c2_range_then_parity :
    pdfTransform [1, 2, 3, 4, 5, 6, 7, 8, 9, 10] "2-4" "odd" = some ([2, 4], true) ∧
    ∀ (α : Type) (pages : List α) (r d : String) (l : List ℚ) (el : List α),
      d = "odd" ∨ d = "even" →
      r ≠ "" → getPageIndices r pages.length = some l → 0 < l.length →
      extractPages pages l = some el →
      pdfTransform pages r d = some (extractParity el d, true) := by
  refine ⟨by decide, ?_⟩
  intro α pages r d l el hd hr hget hlen hext
  simp [pdfTransform, hr, hget, hlen, hext, hd]

/-- C2 witness: the compositional statement applied to the concrete
10-page run with range `"2-4"`, resolver output `[1, 2, 3]` and extracted
pages `[2, 3, 4]`. -/
theorem c2_range_then_parity_witness :
    pdfTransform [1, 2, 3, 4, 5, 6, 7, 8, 9, 10] "2-4" "odd" =
      some (extractParity [2, 3, 4] "odd", true) :=
  c2_range_then_parity.2 ℕ [1, 2, 3, 4, 5, 6, 7, 8, 9, 10] "2-4" "odd" [1, 2, 3] [2, 3, 4]
    (Or.inl rfl) (by decide) (by decide) (by decide) (by decide)

/-- C3: the job-attribute set contains `print-color-mode = monochrome`
iff the grayscale flag is set, contains `sides = two-sided-long-edge` iff
the duplex field is `"auto"`, and contains no other attribute; in
particular `buildJobAttributes false "odd"` (grayscale off, manual odd
duplex) is empty. -/
theorem c3_attribute_builder (g : Bool) (d : String) :
    (("print-color-mode", "monochrome") ∈ buildJobAttributes g d ↔ g = true) ∧
    (("sides", "two-sided-long-edge") ∈ buildJobAttributes g d ↔ d = "auto") ∧
    (∀ kv ∈ buildJobAttributes g d,
      kv = ("print-color-mode", "monochrome") ∨ kv = ("sides", "two-sided-long-edge")) ∧
    buildJobAttributes false "odd" = [] := by
  have hne : (("print-color-mode", "monochrome") : String × String) ≠
      ("sides", "two-sided-long-edge") := by decide
  refine ⟨?_, ?_, ?_, by decide⟩ <;>
    by_cases hd : d = "auto" <;> cases g <;>
      simp [buildJobAttributes, hd, hne, Ne.symm hne]

/-- C3 witness: the attribute-builder theorem applied at the concrete
input `grayscale = true`, `duplex = ""`. -/
theorem c3_attribute_builder_witness :
    (("print-color-mode", "monochrome") ∈ buildJobAttributes true "" ↔ true = true) ∧
    (("sides", "two-sided-long-edge") ∈ buildJobAttributes true "" ↔ "" = "auto") ∧
    (∀ kv ∈ buildJobAttributes true "",
      kv = ("print-color-mode", "monochrome") ∨ kv = ("sides", "two-sided-long-edge")) ∧
    buildJobAttributes false "odd" = [] :=
  c3_attribute_builder true ""

/-- C7 counterexample: the spec's example value is wrong.  Resolving
`"1-3, 5"` against 10 pages does not yield `[0, 1, 2, 5]` — page 5 has
zero-based index 4, not 5. -/
theorem c7_counterexample : getPageIndices "1-3, 5" 10 ≠ some [0, 1, 2, 5] := by decide

/-- C7 (as amended): resolving `"1-3, 5"` against a 10-page document
yields the zero-based index sequence `[0, 1, 2, 4]`. -/
theorem c7_resolver_example : getPageIndices "1-3, 5" 10 = some [0, 1, 2, 4] := by decide

/-- C6 counterexample: a token every one of whose denoted pages falls
outside `[1, totalPages]` is NOT always silently dropped.  The token
`"-5"` denotes only the page number −5, yet because it contains a hyphen
it is split into the fields `""` and `"5"`, `Number("")` is `0`, and the
range loop contributes pages 1–3 of a 3-page document instead of being
dropped. -/
theorem c6_counterexample :
    getPageIndices "-5" 3 ≠ some [] ∧ getPageIndices "-5" 3 = some [0, 1, 2] := by decide

/-- C6 (as amended): a token without a hyphen that does not parse as a
number, or whose value falls outside `(0, totalPages]`, contributes
nothing (and the resolver never errors); but a token containing a hyphen
is split at every hyphen and its first two fields are read as the loop
bounds, so `"-5"` acts as the range 0–5 and `"1-2-3"` as 1–2.  A
partially out-of-range range contributes exactly its in-bounds pages
(`"2-5"` against 3 pages gives `[1, 2]`), and `"1-3, 5"` against 3 pages
yields `[0, 1, 2]` with the out-of-range token `"5"` dropped. -/
theorem c6_token_handling :
    (∀ (p : List Char) (n : ℕ), p.contains '-' = false →
        (jsNumber p = none ∨ ∃ q, jsNumber p = some q ∧ ¬(0 < q ∧ q ≤ (n : ℚ))) →
        partIndices p n = []) ∧
    getPageIndices "-5" 3 = some [0, 1, 2] ∧
    getPageIndices "1-2-3" 10 = some [0, 1] ∧
    getPageIndices "2-5" 3 = some [1, 2] ∧
    getPageIndices "1-3, 5" 3 = some [0, 1, 2] := by
  refine ⟨?_, by decide, by decide, by decide, by decide⟩
  intro p n hc hd
  rw [partIndices, if_neg (by simpa using hc : ¬(p.contains '-' = true))]
  rcases hj : jsNumber p with - | q
  · rfl
  · rcases hd with hnone | ⟨q', hq', hb⟩
    · rw [hj] at hnone
      simp at hnone
    · rw [hj] at hq'
      injection hq' with hq'
      subst hq'
      exact if_neg hb

/-- C6 witness: the dropped-token statement applied to the concrete
tokens `"abc"` (NaN) and `"999"` (out of bounds for 4 pages). -/
theorem c6_token_handling_witness :
    partIndices "abc".data 4 = [] ∧ partIndices "999".data 4 = [] :=
  ⟨c6_token_handling.1 "abc".data 4 (by decide) (Or.inl (by decide)),
   c6_token_handling.1 "999".data 4 (by decide)
     (Or.inr ⟨999, by decide, by decide⟩)⟩

/-- C4 counterexample: the whitespace-only range string does NOT yield
the `null` "no constraint" sentinel — `getPageIndices("   ", 5)` returns
the empty array `[]`, a value distinct from `null` — and a fully
out-of-bounds expression such as `"999"` on a 3-page document is not
surfaced as any error: the handler submits the full document and answers
success. -/
theorem c4_counterexample :
    getPageIndices "" 5 = none ∧
    getPageIndices "   " 5 = some [] ∧
    some ([] : List ℚ) ≠ (none : Option (List ℚ)) ∧
    handler (fun _ => [[0], [1], [2]]) List.flatten
        (some ("doc.pdf", "application/pdf", [7, 7, 7])) (some "ipp://printer") "" "999" ""
        (IppOutcome.ippResponse "successful-ok" 4) =
      (some ⟨"doc.pdf", "application/pdf", [], [7, 7, 7]⟩, HandlerResponse.ok 4) := by decide

/-- C4 (as amended): resolving the empty range string yields the `null`
"no constraint" sentinel, while a whitespace-only string yields the empty
index array — a different value — as does a present expression whose
pages all fall out of bounds (`"999"` against fewer than 999 pages); and
whenever a present range string resolves to the empty array the handler
raises no error at all: with no parity directive it submits the full
original byte buffer and reports plain success (the code has no
`MalformedRangeExpression` condition). -/
theorem c4_range_sentinels (n : ℕ) :
    getPageIndices "" n = none ∧
    getPageIndices "   " n = some [] ∧
    (n < 999 → getPageIndices "999" n = some []) ∧
    ∀ (parse : List ℕ → List (List ℕ)) (save : List (List ℕ) → List ℕ)
      (name url g r : String) (bytes : List ℕ) (jid : ℕ),
      r ≠ "" → getPageIndices r (parse bytes).length = some [] →
      handler parse save (some (name, "application/pdf", bytes)) (some url) "" r g
          (IppOutcome.ippResponse "successful-ok" jid) =
        (some ⟨name, "application/pdf", buildJobAttributes (g == "true") "", bytes⟩,
          HandlerResponse.ok jid) := by
  have hone : ∀ m : ℕ, partIndices [] m = [] := by
    intro m
    rw [partIndices, if_neg (by decide : ¬(List.contains [] '-' = true))]
    have hz : jsNumber [] = some 0 := by decide
    rw [hz]
    exact if_neg (by intro h; exact absurd h.1 (lt_irrefl 0))
  refine ⟨rfl, ?_, ?_, ?_⟩
  · rw [getPageIndices, if_neg (by decide : ¬(("   " : String) = ""))]
    have hparts : (splitOnChar ',' ("   " : String).data).map trimChars = [[]] := by decide
    rw [hparts]
    simp [hone n]
  · intro hn
    rw [getPageIndices, if_neg (by decide : ¬(("999" : String) = ""))]
    have hparts : (splitOnChar ',' ("999" : String).data).map trimChars = [['9', '9', '9']] := by
      decide
    rw [hparts]
    have h999 : partIndices ['9', '9', '9'] n = [] := by
      rw [partIndices, if_neg (by decide : ¬(List.contains ['9', '9', '9'] '-' = true))]
      have hz : jsNumber ['9', '9', '9'] = some 999 := by decide
      rw [hz]
      refine if_neg ?_
      rintro ⟨-, hle⟩
      have : (999 : ℕ) ≤ n := by exact_mod_cast hle
      omega
    simp [h999]
  · intro parse save name url g r bytes jid hr hres
    have hstep : pdfTransform (parse bytes) r "" = some (parse bytes, false) := by
      simp [pdfTransform, hr, hres]
    simp [handler, hstep]

/-- C4 witness: the amended statement applied at `n = 3` and at a
concrete 3-page request with range `"999"`. -/
theorem c4_range_sentinels_witness :
    getPageIndices "999" 3 = some [] ∧
    handler (fun _ => [[0], [1], [2]]) List.flatten
        (some ("a.pdf", "application/pdf", [7, 8])) (some "u") "" "999" "x"
        (IppOutcome.ippResponse "successful-ok" 6) =
      (some ⟨"a.pdf", "application/pdf", buildJobAttributes ("x" == "true") "", [7, 8]⟩,
        HandlerResponse.ok 6) :=
  ⟨(c4_range_sentinels 3).2.2.1 (by decide),
   (c4_range_sentinels 3).2.2.2 (fun _ => [[0], [1], [2]]) List.flatten "a.pdf" "u" "x" "999"
     [7, 8] 6 (by decide) (by decide)⟩

/-- C10 counterexample: the claim fails when a manual-duplex parity
directive is also present.  A 3-page PDF with range `"999"` (which
resolves to zero in-bounds indices) and `duplex = "odd"` does not submit
the original byte buffer: the parity split still runs on the full
document and the re-serialised two-page payload `[1, 3]` is submitted
instead of the uploaded bytes `[9, 9]`. -/
theorem c10_counterexample :
    handler (fun _ => [[1], [2], [3]]) List.flatten
        (some ("f.pdf", "application/pdf", [9, 9])) (some "p") "odd" "999" ""
        (IppOutcome.ippResponse "successful-ok" 7) =
      (some ⟨"f.pdf", "application/pdf", [], [1, 3]⟩, HandlerResponse.ok 7) ∧
    ([1, 3] : List ℕ) ≠ [9, 9] := by decide

/-- C10 (as amended): for a PDF request whose non-empty page-range string
resolves to zero in-bounds indices, the handler skips range extraction
entirely, and — provided no manual-duplex parity directive is present —
submits the full, unmodified original byte buffer with no error and no
indication that the range was ignored: the result is identical to that of
the same request with no range string at all. -/
theorem c10_empty_resolution_passthrough
    (parse : List ℕ → List (List ℕ)) (save : List (List ℕ) → List ℕ)
    (name url d r g : String) (bytes : List ℕ) (jid : ℕ)
    (hr : r ≠ "") (hres : getPageIndices r (parse bytes).length = some [])
    (hd : ¬(d = "odd" ∨ d = "even")) :
    handler parse save (some (name, "application/pdf", bytes)) (some url) d r g
        (IppOutcome.ippResponse "successful-ok" jid) =
      (some ⟨name, "application/pdf", buildJobAttributes (g == "true") d, bytes⟩,
        HandlerResponse.ok jid) ∧
    handler parse save (some (name, "application/pdf", bytes)) (some url) d r g
        (IppOutcome.ippResponse "successful-ok" jid) =
      handler parse save (some (name, "application/pdf", bytes)) (some url) d "" g
        (IppOutcome.ippResponse "successful-ok" jid) := by
  have h1 : pdfTransform (parse bytes) r d = some (parse bytes, false) := by
    simp [pdfTransform, hr, hres, hd]
  have h2 : pdfTransform (parse bytes) "" d = some (parse bytes, false) := by
    simp [pdfTransform, hd]
  constructor
  · simp [handler, h1]
  · simp [handler, h1, h2]

/-- C10 witness: the amended passthrough applied to a concrete 3-page
request with range `"999"` and no duplex directive. -/
theorem c10_empty_resolution_passthrough_witness :
    handler (fun _ => [[1], [2], [3]]) List.flatten
        (some ("f.pdf", "application/pdf", [9, 9])) (some "p") "" "999" ""
        (IppOutcome.ippResponse "successful-ok" 7) =
      (some ⟨"f.pdf", "application/pdf", buildJobAttributes ("" == "true") "", [9, 9]⟩,
        HandlerResponse.ok 7) :=
  (c10_empty_resolution_passthrough (fun _ => [[1], [2], [3]]) List.flatten "f.pdf" "p" ""
    "999" "" [9, 9] 7 (by decide) (by decide) (by decide)).1

/-- C8 counterexample: for non-PDF content the ignoring of page-selection
directives is NOT explicit in the outcome.  A `text/plain` request with
`duplex = "odd"` and range `"1-2"` produces exactly the same submitted
job and the same response as the request with no directives at all —
nothing in the outcome reports that the directives were ignored. -/
theorem c8_counterexample :
    handler (fun _ => []) (fun _ => []) (some ("a.txt", "text/plain", [5, 6])) (some "p")
        "odd" "1-2" "false" (IppOutcome.ippResponse "successful-ok" 3) =
      handler (fun _ => []) (fun _ => []) (some ("a.txt", "text/plain", [5, 6])) (some "p")
        "" "" "false" (IppOutcome.ippResponse "successful-ok" 3) := by decide

/-- C8 (as amended): for every request whose content is not
`application/pdf`, page splitting is a no-op passthrough — the submitted
payload is exactly the uploaded bytes, tagged `application/octet-stream` —
and a manual parity directive together with any range string leaves the
whole outcome identical to the directive-free request: the ignoring is
silent, with no indication in the outcome. -/
theorem c8_nonpdf_passthrough
    (parse : List ℕ → List (List ℕ)) (save : List (List ℕ) → List ℕ)
    (name mt url d r g : String) (bytes : List ℕ) (ipp : IppOutcome)
    (hmt : mt ≠ "application/pdf") :
    (handler parse save (some (name, mt, bytes)) (some url) d r g ipp).1 =
      some ⟨name, "application/octet-stream", buildJobAttributes (g == "true") d, bytes⟩ ∧
    ((d = "odd" ∨ d = "even") →
      handler parse save (some (name, mt, bytes)) (some url) d r g ipp =
        handler parse save (some (name, mt, bytes)) (some url) "" "" g ipp) := by
  constructor
  · rcases ipp with - | ⟨st, j⟩
    · simp [handler, hmt]
    · by_cases hst :
          st = "successful-ok" ∨ st = "successful-ok-ignored-or-substituted-attributes"
      · simp [handler, hmt, hst]
      · simp [handler, hmt, hst]
  · intro hd
    have hda : d ≠ "auto" := by
      rcases hd with h | h <;> subst h <;> decide
    have hattrs : buildJobAttributes (g == "true") d = buildJobAttributes (g == "true") "" := by
      simp [buildJobAttributes, hda]
    simp [handler, hmt, hattrs]

/-- C8 witness: the passthrough statement applied to a concrete
`text/plain` request carrying `duplex = "odd"` and range `"1-2"`. -/
theorem c8_nonpdf_passthrough_witness :
    (handler (fun _ => []) (fun _ => []) (some ("a.txt", "text/plain", [5, 6])) (some "p")
        "odd" "1-2" "false" (IppOutcome.ippResponse "successful-ok" 3)).1 =
      some ⟨"a.txt", "application/octet-stream", buildJobAttributes ("false" == "true") "odd",
        [5, 6]⟩ ∧
    handler (fun _ => []) (fun _ => []) (some ("a.txt", "text/plain", [5, 6])) (some "p")
        "odd" "1-2" "false" (IppOutcome.ippResponse "successful-ok" 3) =
      handler (fun _ => []) (fun _ => []) (some ("a.txt", "text/plain", [5, 6])) (some "p")
        "" "" "false" (IppOutcome.ippResponse "successful-ok" 3) :=
  ⟨(c8_nonpdf_passthrough (fun _ => []) (fun _ => []) "a.txt" "text/plain" "p" "odd" "1-2"
      "false" [5, 6] (IppOutcome.ippResponse "successful-ok" 3) (by decide)).1,
   (c8_nonpdf_passthrough (fun _ => []) (fun _ => []) "a.txt" "text/plain" "p" "odd" "1-2"
      "false" [5, 6] (IppOutcome.ippResponse "successful-ok" 3) (by decide)).2
     (Or.inl rfl)⟩

/-- C5 witness: the exact-selection theorem applied to the concrete
5-page document `[10, 20, 30, 40, 50]`, whose odd split is `[10, 30, 50]`
and whose even split is `[20, 40]`. -/
theorem c5_parity_exact_selection_witness :
    extractParity ([10, 20, 30, 40, 50] : List ℕ) "odd" = [10, 30, 50] ∧
    extractParity ([10, 20, 30, 40, 50] : List ℕ) "even" = [20, 40] := by
  have h := c5_parity_exact_selection ℕ [10, 20, 30, 40, 50]
  refine ⟨?_, ?_⟩
  · rw [h.1]
    decide
  · rw [h.2.1]
    decide

/-- C9 witness: the amended re-application theorem applied to the
concrete document `[1, 2, 3, 4, 5]`: the double split equals
`fourthSpec`, and since the first split has 3 pages the double split does
not retain all of them. -/
theorem c9_reapplied_parity_witness :
    extractParity (extractParity ([1, 2, 3, 4, 5] : List ℕ) "odd") "odd" =
      fourthSpec [1, 2, 3, 4, 5] ∧
    ¬(extractParity (extractParity ([1, 2, 3, 4, 5] : List ℕ) "odd") "odd" =
        extractParity [1, 2, 3, 4, 5] "odd") := by
  have h := c9_reapplied_parity ℕ [1, 2, 3, 4, 5]
  refine ⟨h.1, fun hc => ?_⟩
  have hlen := h.2.mp hc
  revert hlen
  decide
